import Mathlib

/-!
Shallow embedding of `poke_api_fetcher.py`: the cache-backed fetch pipeline
with retry/backoff, the paginated collectors, the evolution-chain flattener,
the field extractor and the row-assembly loops, together with theorems about
the behaviour of these functions.

Remote HTTP calls are modelled by an explicit outcome value per attempt
(`AttemptResult`): a call either raises a network exception, returns HTTP 200
with a payload, or returns a non-success status.  The on-disk cache for one
key is modelled as `Option (CacheEntry α)`: absent, valid, or present but
corrupt (unreadable/unparseable).  Raised Python exceptions are modelled with
`Except Unit`.
-/

/-! ## Data model: detail records and field extraction -/

/-- One entry of the `stats` list of a detail record:
`{stat: {name: statName}, base_stat: base_stat}`. -/
structure StatEntry where
  statName : String
  base_stat : Int
deriving DecidableEq, Repr

/-- One entry of the `types` list of a detail record: `{type: {name: typeName}}`. -/
structure TypeEntry where
  typeName : String
deriving DecidableEq, Repr

/-- The JSON detail record for one Pokemon, with the fields the program reads.
`Option` models keys that `dict.get` may find missing and the nullable
`sprites.front_default` URL. -/
structure PokemonData where
  id : Option Int := none
  height : Option Int := none
  weight : Option Int := none
  stats : List StatEntry := []
  types : List TypeEntry := []
  sprite : Option String := none
deriving DecidableEq, Repr

/-- A CSV cell value produced by field extraction. -/
inductive Value where
  | str : String → Value
  | int : Int → Value
deriving DecidableEq, Repr

/-- Scan of a stats list for the first entry with the given name
(the loop body of `get_stat`). -/
def get_stat_list : List StatEntry → String → Option Int
  | [], _ => none
  | e :: rest, s => if e.statName = s then some e.base_stat else get_stat_list rest s

/-- `get_stat(pokemon_data, stat_name)`: first matching stat value `base_stat`,
`None` when no stat of that name exists. -/
def get_stat (pokemon_data : PokemonData) (stat_name : String) : Option Int :=
  get_stat_list pokemon_data.stats stat_name

/-- `get_types(pokemon_data)`: the list of type names, in source order. -/
def get_types (pokemon_data : PokemonData) : List String :=
  pokemon_data.types.map (fun t => t.typeName)

/-- `get_field_value(pokemon_data, field, pokemon_name, download_images)`.
`download_sprite` is the sprite-download collaborator: given the remote URL and
the creature name it returns the local path, or `none` when the download
fails.  The Python falsiness test `if not sprite_url` is true for both `None`
and the empty string. -/
def get_field_value (pokemon_data : PokemonData) (field : String)
    (pokemon_name : String) (download_images : Bool)
    (download_sprite : String → String → Option String) : Option Value :=
  if field = "name" then some (Value.str pokemon_name)
  else if field = "id" then pokemon_data.id.map Value.int
  else if field = "height" then pokemon_data.height.map Value.int
  else if field = "weight" then pokemon_data.weight.map Value.int
  else if field = "speed" then (get_stat pokemon_data "speed").map Value.int
  else if field = "attack" then (get_stat pokemon_data "attack").map Value.int
  else if field = "defense" then (get_stat pokemon_data "defense").map Value.int
  else if field = "hp" then (get_stat pokemon_data "hp").map Value.int
  else if field = "special-attack" then
    (get_stat pokemon_data "special-attack").map Value.int
  else if field = "special-defense" then
    (get_stat pokemon_data "special-defense").map Value.int
  else if field = "sprite" then
    match pokemon_data.sprite with
    | none => none
    | some sprite_url =>
      if sprite_url = "" then none
      else if download_images then (download_sprite sprite_url pokemon_name).map Value.str
      else some (Value.str sprite_url)
  else if field = "types" then
    some (Value.str (String.intercalate ", " (get_types pokemon_data)))
  else none

/-! ## Cache store and resilient fetch -/

/-- Outcome of one remote HTTP attempt: a raised network exception,
a success (status 200) carrying the decoded payload, or a non-success status. -/
inductive AttemptResult (α : Type) where
  | raise : AttemptResult α
  | ok : α → AttemptResult α
  | httpFail : Nat → AttemptResult α
deriving DecidableEq, Repr

/-- The on-disk cache entry for one key: present and readable, or present but
corrupt (reading it raises, which the code catches). -/
inductive CacheEntry (α : Type) where
  | valid : α → CacheEntry α
  | corrupt : CacheEntry α
deriving DecidableEq, Repr

/-- `cache_file.exists()` for the modelled cache state. -/
def existsEntry {α : Type} (cache : Option (CacheEntry α)) : Bool :=
  cache.isSome

/-- `cache_file.unlink()`: removing the entry for a key, whatever it was. -/
def invalidate {α : Type} (_cache : Option (CacheEntry α)) : Option (CacheEntry α) :=
  none

/-- `get_pokemon_details(pokemon_url)` for one key, given the cache state for
that key and the outcome of the (single) remote attempt.  Returns
`(data, cache_hit)` plus the new cache state; `Except.error` models the
`requests.get` exception propagating to the caller.  A corrupt cache entry is
caught, logged and falls through to the fetch. -/
def get_pokemon_details {α : Type} (cache : Option (CacheEntry α))
    (att : AttemptResult α) : Except Unit (Option α × Bool × Option (CacheEntry α)) :=
  match cache with
  | some (CacheEntry.valid d) => Except.ok (some d, true, cache)
  | _ =>
    match att with
    | AttemptResult.raise => Except.error ()
    | AttemptResult.ok d => Except.ok (some d, false, some (CacheEntry.valid d))
    | AttemptResult.httpFail _ => Except.ok (none, false, cache)

/-- `get_evolution_chain_details(chain_url, force_refresh)`: like
`get_pokemon_details`, but the cache is only consulted when
`cache_file.exists() and not force_refresh`; the entry is never removed. -/
def get_evolution_chain_details {α : Type} (cache : Option (CacheEntry α))
    (force_refresh : Bool) (att : AttemptResult α) :
    Except Unit (Option α × Bool × Option (CacheEntry α)) :=
  match cache, force_refresh with
  | some (CacheEntry.valid d), false => Except.ok (some d, true, cache)
  | _, _ =>
    match att with
    | AttemptResult.raise => Except.error ()
    | AttemptResult.ok d => Except.ok (some d, false, some (CacheEntry.valid d))
    | AttemptResult.httpFail _ => Except.ok (none, false, cache)

/-- The cache-hit flag of a fetch outcome (`false` when the fetch raised). -/
def hitOf {α : Type} (r : Except Unit (Option α × Bool × Option (CacheEntry α))) : Bool :=
  match r with
  | Except.ok t => t.2.1
  | Except.error _ => false

/-- A fetch outcome without the cache state, for comparing observable
behaviour of two cache starting points. -/
def dropCacheState {α : Type} (r : Except Unit (Option α × Bool × Option (CacheEntry α))) :
    Except Unit (Option α × Bool) :=
  Except.map (fun t => (t.1, t.2.1)) r

/-- Trace of one `get_pokemon_details_with_retry` run: final result and
cache-hit flag, final cache state, the backoff waits slept (in order), and
the number of remote attempts issued. -/
structure RetryTrace (α : Type) where
  result : Option α
  cacheHit : Bool
  cache : Option (CacheEntry α)
  waits : List Nat
  calls : Nat
deriving DecidableEq, Repr

/-- The `while retries < max_retries` loop of `get_pokemon_details_with_retry`.
`atts n` is the outcome of the remote attempt made in loop iteration `n`.
When `force_refresh` is set the loop body first unlinks the cache entry.  Only
a raised exception is caught and retried; after incrementing `retries` the
loop sleeps `2 ** retries` only when more retries remain. -/
def retryLoop {α : Type} (max_retries : Nat) (force_refresh : Bool)
    (atts : Nat → AttemptResult α) (cache : Option (CacheEntry α))
    (retries : Nat) (waits : List Nat) (calls : Nat) : RetryTrace α :=
  if retries < max_retries then
    let cache1 := if force_refresh then invalidate cache else cache
    match get_pokemon_details cache1 (atts retries) with
    | Except.ok (d, hit, cache2) => ⟨d, hit, cache2, waits, calls + (if hit then 0 else 1)⟩
    | Except.error _ =>
        retryLoop max_retries force_refresh atts cache1 (retries + 1)
          (waits ++ if retries + 1 < max_retries then [2 ^ (retries + 1)] else []) (calls + 1)
  else ⟨none, false, cache, waits, calls⟩
termination_by max_retries - retries

/-- `get_pokemon_details_with_retry(pokemon_url, max_retries, force_refresh)`
for one key: runs the retry loop from `retries = 0` with no waits or calls
recorded yet.  The default of the caller is `max_retries = 3`,
`force_refresh = False`. -/
def get_pokemon_details_with_retry {α : Type} (atts : Nat → AttemptResult α)
    (max_retries : Nat) (force_refresh : Bool) (cache : Option (CacheEntry α)) :
    RetryTrace α :=
  retryLoop max_retries force_refresh atts cache 0 [] 0

/-! ## Paginated collectors -/

/-- Outcome of fetching one list page: success with the `results` of the page and
whether a `next` cursor is present, or a non-success status. -/
inductive PageResult (α : Type) where
  | ok : List α → Bool → PageResult α
  | fail : Nat → PageResult α
deriving DecidableEq, Repr

/-- The pagination loop of `fetch_pokemon_from_api`: follow the `next` cursor
until it is null or a page fails, accumulating `results` in page order.
Returns the accumulated list and the number of page requests issued. -/
def fetch_pokemon_loop {α : Type} : List (PageResult α) → List α → Nat → List α × Nat
  | [], acc, calls => (acc, calls)
  | p :: rest, acc, calls =>
    match p with
    | PageResult.fail _ => (acc, calls + 1)
    | PageResult.ok results next =>
      if next then fetch_pokemon_loop rest (acc ++ results) (calls + 1)
      else (acc ++ results, calls + 1)

/-- The Python test `if limit and len(all_chains) >= limit`:
`limit` must be present and truthy (nonzero) and already reached. -/
def limitReached (limit : Option Nat) (n : Nat) : Bool :=
  match limit with
  | none => false
  | some l => decide (0 < l) && decide (l ≤ n)

/-- The pagination loop of `fetch_evolution_chains`: like
`fetch_pokemon_loop`, but after extending the accumulator each page the loop
truncates to `limit` and breaks as soon as the accumulated count reaches a
truthy `limit`. -/
def fetch_chains_loop {α : Type} (limit : Option Nat) :
    List (PageResult α) → List α → Nat → List α × Nat
  | [], acc, calls => (acc, calls)
  | p :: rest, acc, calls =>
    match p with
    | PageResult.fail _ => (acc, calls + 1)
    | PageResult.ok results next =>
      let acc1 := acc ++ results
      if limitReached limit acc1.length then (acc1.take (limit.getD 0), calls + 1)
      else if next then fetch_chains_loop limit rest acc1 (calls + 1)
      else (acc1, calls + 1)

/-- `fetch_evolution_chains(force_refresh, limit)`: serve the snapshot cache
when it exists, is readable and `force_refresh` is off; otherwise run the
pagination loop and, when the collected list is nonempty, persist it under the
fixed snapshot key.  Returns the chain list and the new snapshot cache
state. -/
def fetch_evolution_chains {α : Type} (force_refresh : Bool) (limit : Option Nat)
    (cache : Option (CacheEntry (List α))) (pages : List (PageResult α)) :
    List α × Option (CacheEntry (List α)) :=
  match cache, force_refresh with
  | some (CacheEntry.valid chains), false => (chains, cache)
  | _, _ =>
    let all_chains := (fetch_chains_loop limit pages [] 0).1
    (all_chains, if all_chains.isEmpty then cache else some (CacheEntry.valid all_chains))

/-! ## Evolution chain trees and flattening -/

/-- A `species` reference inside a chain node: `{name, url}`. -/
structure SpeciesRef where
  name : String
  url : String
deriving DecidableEq, Repr

/-- One flattened evolution edge, as appended by `process_chain_link`. -/
structure EvolutionPair where
  pre_evolution : SpeciesRef
  evolution : SpeciesRef
deriving DecidableEq, Repr

/-- A chain node: its `species` and its `evolves_to` children, in source
order. -/
inductive ChainLink where
  | node : SpeciesRef → List ChainLink → ChainLink

/-- The `species` of a chain node. -/
def speciesOf : ChainLink → SpeciesRef
  | ChainLink.node sp _ => sp

mutual
/-- The recursive `process_chain_link(chain_link, parent)` of
`extract_evolution_pairs`: emit `(parent, species)` when a parent exists, then
recurse into `evolves_to` in order with this node as the new parent.  The list
returned is the pairs appended during this call, in append order. -/
def process_chain_link : ChainLink → Option SpeciesRef → List EvolutionPair
  | ChainLink.node sp children, parent =>
    (match parent with
     | some par => [⟨par, sp⟩]
     | none => []) ++ process_children children sp
/-- The `for evolves_to in chain_link.get("evolves_to", [])` loop. -/
def process_children : List ChainLink → SpeciesRef → List EvolutionPair
  | [], _ => []
  | c :: cs, par => process_chain_link c (some par) ++ process_children cs par
end

/-- An evolution-chain detail record; `chain = none` models a record without a
`"chain"` key. -/
structure ChainData where
  chain : Option ChainLink

/-- `extract_evolution_pairs(chain_data)`: start at the base chain link when
`chain_data` is truthy and has a `"chain"` key, else return no pairs. -/
def extract_evolution_pairs : Option ChainData → List EvolutionPair
  | none => []
  | some chain_data =>
    match chain_data.chain with
    | none => []
    | some link => process_chain_link link none

mutual
/-- All species of a subtree, root included. -/
def subtreeSpecies : ChainLink → List SpeciesRef
  | ChainLink.node sp cs => sp :: subtreeSpeciesList cs
/-- All species of a forest. -/
def subtreeSpeciesList : List ChainLink → List SpeciesRef
  | [] => []
  | c :: cs => subtreeSpecies c ++ subtreeSpeciesList cs
end

/-- Species of the strict descendants of a node (everything below the root). -/
def descSpecies : ChainLink → List SpeciesRef
  | ChainLink.node _ cs => subtreeSpeciesList cs

mutual
/-- All parent-to-child species edges of a subtree. -/
def treeEdges : ChainLink → List (SpeciesRef × SpeciesRef)
  | ChainLink.node sp cs => edgesFrom sp cs
/-- Edges from a parent species to each tree of a forest, plus the edges
inside those trees. -/
def edgesFrom : SpeciesRef → List ChainLink → List (SpeciesRef × SpeciesRef)
  | _, [] => []
  | sp, c :: cs => (sp, speciesOf c) :: (treeEdges c ++ edgesFrom sp cs)
end

/-! ## Row assembly -/

/-- The per-item field loop of `main`: extract each requested field in order;
a `None` value for any field other than `name` abandons the row (the record is
skipped, nothing partial is kept). -/
def build_row (pokemon_data : PokemonData) (pokemon_name : String)
    (fields : List String) (download_images : Bool)
    (download_sprite : String → String → Option String) : Option (List (Option Value)) :=
  match fields with
  | [] => some []
  | f :: fs =>
    let v := get_field_value pokemon_data f pokemon_name download_images download_sprite
    if v = none ∧ f ≠ "name" then none
    else
      match build_row pokemon_data pokemon_name fs download_images download_sprite with
      | none => none
      | some row => some (v :: row)

/-- The per-Pokemon loop of `main`: each item is the name of the Pokemon together
with the result of `get_pokemon_details_with_retry` for it (`none` when the
fetch failed).  Returns `(processed, skipped, rows written in order)`. -/
def process_list (fields : List String) (download_images : Bool)
    (download_sprite : String → String → Option String) :
    List (String × Option PokemonData) → Nat × Nat × List (List (Option Value))
  | [] => (0, 0, [])
  | (pokemon_name, fetched) :: rest =>
    let r := process_list fields download_images download_sprite rest
    match fetched with
    | none => (r.1, r.2.1 + 1, r.2.2)
    | some pokemon_data =>
      match build_row pokemon_data pokemon_name fields download_images download_sprite with
      | none => (r.1, r.2.1 + 1, r.2.2)
      | some row => (r.1 + 1, r.2.1, row :: r.2.2)

/-! ## Evolution rows and stat deltas -/

/-- The Python expression `x or 0` applied to an optional stat value. -/
def pyOrZero : Option Int → Int
  | none => 0
  | some n => n

/-- The local `stat_fields` list of `collect_evolution_data`. -/
def stat_fields : List String :=
  ["hp", "attack", "defense", "special-attack", "special-defense", "speed"]

/-- One field assignment of the per-side field loops in
`collect_evolution_data` (`none` when the field is unrecognized and no key is
added; `some v` when the key is added with cell value `v`). -/
def evo_field_value (d : PokemonData) (nm : String) (field : String)
    (download_images : Bool) (download_sprite : String → String → Option String) :
    Option (Option Value) :=
  if field = "name" then some (some (Value.str nm))
  else if field = "id" then some (d.id.map Value.int)
  else if field = "height" then some (d.height.map Value.int)
  else if field = "weight" then some (d.weight.map Value.int)
  else if field ∈ stat_fields then some ((get_stat d field).map Value.int)
  else if field = "types" then
    some (some (Value.str (String.intercalate ", " (get_types d))))
  else if field = "sprite" then
    match d.sprite with
    | none => some none
    | some sprite_url =>
      if sprite_url = "" then some none
      else if download_images then some ((download_sprite sprite_url nm).map Value.str)
      else some (some (Value.str sprite_url))
  else none

/-- The keyed cells added by one of the two per-side field loops of
`collect_evolution_data`, keys tagged with `tag`. -/
def evo_fields_part (tag : String) (fields : List String) (d : PokemonData)
    (nm : String) (download_images : Bool)
    (download_sprite : String → String → Option String) : List (String × Option Value) :=
  fields.foldr
    (fun f acc =>
      match evo_field_value d nm f download_images download_sprite with
      | none => acc
      | some v => (tag ++ f, v) :: acc) []

/-- The `for stat in stat_fields` delta loop of `collect_evolution_data`,
generalized over the list iterated. -/
def stat_change_entries (sts : List String) (fields : List String)
    (pre_evo_data evo_data : PokemonData) : List (String × Option Value) :=
  sts.foldr
    (fun st acc =>
      if st ∈ fields then
        (st ++ "_change",
          some (Value.int (pyOrZero (get_stat evo_data st) - pyOrZero (get_stat pre_evo_data st)))) :: acc
      else acc) []

/-- The stat-delta cells of an evolution row. -/
def stat_changes (fields : List String) (pre_evo_data evo_data : PokemonData) :
    List (String × Option Value) :=
  stat_change_entries stat_fields fields pre_evo_data evo_data

/-- One full evolution row of `collect_evolution_data`: pre-evolution cells,
evolution cells, then the stat-delta cells. -/
def evolution_row (fields : List String) (preName evoName : String)
    (pre_evo_data evo_data : PokemonData) (download_images : Bool)
    (download_sprite : String → String → Option String) : List (String × Option Value) :=
  evo_fields_part "pre_evolution_" fields pre_evo_data preName download_images download_sprite ++
  evo_fields_part "evolution_" fields evo_data evoName download_images download_sprite ++
  stat_changes fields pre_evo_data evo_data

/-- The per-pair loop of `collect_evolution_data`: each item carries, for the
pre-evolution and the evolution of one pair, the name and the result of
`get_pokemon_details_with_retry` for it (`none` when that fetch failed).
A pair with a failed fetch on either side increments `skipped_pairs`;
otherwise the row is assembled and written unconditionally — no field value
is inspected — and `processed_pairs` is incremented.  Returns
`(processed_pairs, skipped_pairs, rows written in order)`. -/
def process_pairs (fields : List String) (download_images : Bool)
    (download_sprite : String → String → Option String) :
    List ((String × Option PokemonData) × (String × Option PokemonData)) →
    Nat × Nat × List (List (String × Option Value))
  | [] => (0, 0, [])
  | ((preName, preData), (evoName, evoData)) :: rest =>
    let r := process_pairs fields download_images download_sprite rest
    match preData, evoData with
    | some pre_evo_data, some evo_data =>
      (r.1 + 1, r.2.1,
        evolution_row fields preName evoName pre_evo_data evo_data
          download_images download_sprite :: r.2.2)
    | _, _ => (r.1, r.2.1 + 1, r.2.2)

/-! ## Concrete fixtures -/

/-- Species fixture A. -/
def spA : SpeciesRef := ⟨"A", "https://api.example/species/A/"⟩

/-- Species fixture B. -/
def spB : SpeciesRef := ⟨"B", "https://api.example/species/B/"⟩

/-- Species fixture C. -/
def spC : SpeciesRef := ⟨"C", "https://api.example/species/C/"⟩

/-- Species fixture D. -/
def spD : SpeciesRef := ⟨"D", "https://api.example/species/D/"⟩

/-- The chain tree `A -> [B, C]`, `B -> [D]` of the flattening example in the
spec. -/
def exChain : ChainLink :=
  ChainLink.node spA [ChainLink.node spB [ChainLink.node spD []], ChainLink.node spC []]

/-! ## Claim C2: flattening order -/

/-- Claim C2 as stated is false: on the chain tree `A -> [B, C]`, `B -> [D]`
the flattener does not return the pairs in the claimed order
`(A,B), (A,C), (B,D)`. -/
theorem c2_counterexample :
    extract_evolution_pairs (some ⟨some exChain⟩) ≠
      [⟨spA, spB⟩, ⟨spA, spC⟩, ⟨spB, spD⟩] := by
  decide

/-- Claim C2, amended: flattening `A -> [B, C]`, `B -> [D]` yields exactly the
3 pairs `(A,B), (B,D), (A,C)` in depth-first pre-order (the subtree of a node is
exhausted before its next sibling), and an empty or malformed chain (no
top-level node) yields the empty pair list rather than an error. -/
theorem c2_flatten :
    extract_evolution_pairs (some ⟨some exChain⟩) = [⟨spA, spB⟩, ⟨spB, spD⟩, ⟨spA, spC⟩] ∧
    extract_evolution_pairs none = [] ∧
    extract_evolution_pairs (some ⟨none⟩) = [] := by
  refine ⟨by decide, rfl, rfl⟩

/-! ## Claim C3: pagination -/

/-- Claim C3: with 3 pages of 2, 2 and 1 items and no limit, both paginated
collectors follow the next cursor and return all 5 refs in page order using 3
page requests; with limit 3, the chain collector returns exactly the first 3
refs and issues no request for the 3rd page. -/
theorem c3_pagination (α : Type) (x1 x2 x3 x4 x5 : α) :
    fetch_pokemon_loop
        [PageResult.ok [x1, x2] true, PageResult.ok [x3, x4] true, PageResult.ok [x5] false]
        [] 0 = ([x1, x2, x3, x4, x5], 3) ∧
    fetch_chains_loop none
        [PageResult.ok [x1, x2] true, PageResult.ok [x3, x4] true, PageResult.ok [x5] false]
        [] 0 = ([x1, x2, x3, x4, x5], 3) ∧
    fetch_chains_loop (some 3)
        [PageResult.ok [x1, x2] true, PageResult.ok [x3, x4] true, PageResult.ok [x5] false]
        [] 0 = ([x1, x2, x3], 2) := by
  refine ⟨?_, ?_, ?_⟩ <;>
    simp [fetch_pokemon_loop, fetch_chains_loop, limitReached]

/-! ## Claim C7: stat and type extraction -/

/-- Scanning a stats list that has no entry of the requested name yields
`none`. -/
theorem get_stat_list_eq_none (l : List StatEntry) (s : String)
    (h : ∀ e ∈ l, e.statName ≠ s) : get_stat_list l s = none := by
  induction l with
  | nil => rfl
  | cons e rest ih =>
    have he : e.statName ≠ s := h e (by simp)
    simp [get_stat_list, he]
    exact ih (fun x hx => h x (by simp [hx]))

/-- With pairwise-distinct stat names, scanning finds the base value of the
entry carrying the requested name. -/
theorem get_stat_list_eq_some (l : List StatEntry) (s : String) (v : Int)
    (huniq : l.Pairwise (fun a b => a.statName ≠ b.statName))
    (hmem : StatEntry.mk s v ∈ l) : get_stat_list l s = some v := by
  induction l with
  | nil => simp at hmem
  | cons e rest ih =>
    rcases List.pairwise_cons.mp huniq with ⟨hhead, htail⟩
    rcases List.mem_cons.mp hmem with heq | htl
    · subst heq
      simp [get_stat_list]
    · have hne : e.statName ≠ s := by
        intro h
        exact (hhead _ htl) (by simpa using h)
      simp [get_stat_list, hne]
      exact ih htail htl

/-- Claim C7: a stat whose name appears in no entry of the stats list of a record
extracts to Absent (`none`), not zero; a present stat extracts to its base
value even when that value is 0 (stat names being unique within a record);
and extracting `types` from a record with types `grass, poison` yields the
string `"grass, poison"` joined with the fixed separator. -/
theorem c7_field_extraction (p q r : PokemonData) (s t nm : String) (v : Int)
    (dl : Bool) (ds : String → String → Option String)
    (habs : ∀ e ∈ p.stats, e.statName ≠ s)
    (huniq : q.stats.Pairwise (fun a b => a.statName ≠ b.statName))
    (hmem : StatEntry.mk t v ∈ q.stats)
    (htypes : r.types = [⟨"grass"⟩, ⟨"poison"⟩]) :
    get_stat p s = none ∧ get_stat q t = some v ∧
    get_field_value r "types" nm dl ds = some (Value.str "grass, poison") := by
  refine ⟨get_stat_list_eq_none _ _ habs, get_stat_list_eq_some _ _ _ huniq hmem, ?_⟩
  simp [get_field_value, get_types, htypes]
  decide

/-- Witness for C7 at a concrete record: `speed` present with base value 0,
`attack` absent, and the `grass, poison` types example. -/
theorem c7_witness :
    (∀ e ∈ ({ stats := [⟨"speed", 0⟩] } : PokemonData).stats, e.statName ≠ "attack") ∧
    (({ stats := [⟨"speed", 0⟩] } : PokemonData).stats.Pairwise
        (fun a b => a.statName ≠ b.statName)) ∧
    (StatEntry.mk "speed" 0 ∈ ({ stats := [⟨"speed", 0⟩] } : PokemonData).stats) ∧
    (get_stat { stats := [⟨"speed", 0⟩] } "attack" = none ∧
     get_stat { stats := [⟨"speed", 0⟩] } "speed" = some 0 ∧
     get_field_value { types := [⟨"grass"⟩, ⟨"poison"⟩] } "types" "bulbasaur" false
        (fun _ _ => none) = some (Value.str "grass, poison")) := by
  refine ⟨by decide, by decide, by decide, ?_⟩
  exact c7_field_extraction { stats := [⟨"speed", 0⟩] } { stats := [⟨"speed", 0⟩] }
    { types := [⟨"grass"⟩, ⟨"poison"⟩] } "attack" "speed" "bulbasaur" 0 false
    (fun _ _ => none) (by decide) (by decide) (by decide) rfl

/-! ## Claim C1: retry with backoff -/

/-- Claim C1 as stated is false: an attempt that fails with a non-success
HTTP status is not retried.  With the first two attempts answering status 500
and the third set to succeed, the fetch returns Failure (`none`) after a
single remote call and sleeps no backoff waits, instead of returning the
successful record of the third attempt. -/
theorem c1_counterexample :
    get_pokemon_details_with_retry (α := Nat)
        (fun n => if n = 2 then AttemptResult.ok 7 else AttemptResult.httpFail 500)
        3 false none =
      ⟨none, false, none, [], 1⟩ := by
  simp [get_pokemon_details_with_retry, retryLoop, get_pokemon_details, invalidate]

/-- Claim C1, amended: only a raised network error is retried; a non-success
HTTP status makes the fetch return Failure (`none`, `cacheHit = false`) after
that single attempt, with no retry and no backoff wait.  For raised errors
the fetch is retried up to 3 attempts with backoff waits of `2 ^ attempt`
time units between attempts (2 then 4; none after the final failure): a fetch
whose first two attempts raise and whose third succeeds returns the record
with `cacheHit = false` after 3 remote calls, and a fetch whose attempts all
raise returns Failure (`none`) rather than raising. -/
theorem c1_retry_backoff (α : Type) (d : α) (st : Nat)
    (atts1 atts2 atts3 : Nat → AttemptResult α)
    (h0 : atts1 0 = AttemptResult.raise) (h1 : atts1 1 = AttemptResult.raise)
    (h2 : atts1 2 = AttemptResult.ok d)
    (hall : ∀ n, atts2 n = AttemptResult.raise)
    (h3 : atts3 0 = AttemptResult.httpFail st) :
    get_pokemon_details_with_retry atts1 3 false none =
      ⟨some d, false, some (CacheEntry.valid d), [2, 4], 3⟩ ∧
    get_pokemon_details_with_retry atts2 3 false none = ⟨none, false, none, [2, 4], 3⟩ ∧
    get_pokemon_details_with_retry atts3 3 false none = ⟨none, false, none, [], 1⟩ := by
  refine ⟨?_, ?_, ?_⟩ <;>
    simp [get_pokemon_details_with_retry, retryLoop, get_pokemon_details, invalidate,
      h0, h1, h2, hall, h3]

/-- Witness for the amended C1 at concrete attempt schedules. -/
theorem c1_retry_backoff_witness :
    ((fun n => if n < 2 then AttemptResult.raise else AttemptResult.ok 7) 0 =
        AttemptResult.raise (α := Nat)) ∧
    ((fun n => if n < 2 then AttemptResult.raise else AttemptResult.ok 7) 1 =
        AttemptResult.raise (α := Nat)) ∧
    ((fun n => if n < 2 then AttemptResult.raise else AttemptResult.ok 7) 2 =
        AttemptResult.ok 7) ∧
    (∀ n, (fun _ : Nat => AttemptResult.raise (α := Nat)) n = AttemptResult.raise) ∧
    ((fun _ : Nat => AttemptResult.httpFail (α := Nat) 500) 0 = AttemptResult.httpFail 500) ∧
    (get_pokemon_details_with_retry (fun n => if n < 2 then AttemptResult.raise else AttemptResult.ok 7)
        3 false none = ⟨some 7, false, some (CacheEntry.valid 7), [2, 4], 3⟩ ∧
     get_pokemon_details_with_retry (fun _ : Nat => AttemptResult.raise (α := Nat)) 3 false none =
        ⟨none, false, none, [2, 4], 3⟩ ∧
     get_pokemon_details_with_retry (fun _ : Nat => AttemptResult.httpFail (α := Nat) 500) 3 false none =
        ⟨none, false, none, [], 1⟩) := by
  refine ⟨by decide, by decide, by decide, fun n => rfl, rfl, ?_⟩
  exact c1_retry_backoff Nat 7 500
    (fun n => if n < 2 then AttemptResult.raise else AttemptResult.ok 7)
    (fun _ => AttemptResult.raise) (fun _ => AttemptResult.httpFail 500)
    (by decide) (by decide) (by decide) (fun n => rfl) rfl

/-! ## Claim C4: invalidation and force refresh -/

/-- Claim C4 as stated is false for evolution-chain keys: a force-refreshed
fetch whose remote call answers a non-success status leaves the old cache
entry in place, so the subsequent existence check still returns true and a
later non-forced fetch of the same key reports a cache hit. -/
theorem c4_counterexample :
    get_evolution_chain_details (some (CacheEntry.valid (5 : Nat))) true
        (AttemptResult.httpFail 500) =
      Except.ok (none, false, some (CacheEntry.valid 5)) ∧
    existsEntry (some (CacheEntry.valid (5 : Nat))) = true ∧
    get_evolution_chain_details (some (CacheEntry.valid (5 : Nat))) false
        (AttemptResult.httpFail 500) =
      Except.ok (some 5, true, some (CacheEntry.valid 5)) := by
  exact ⟨rfl, rfl, rfl⟩

/-- Claim C4, amended: removing the cache entry of a key makes a subsequent
existence check return false, and the next fetch of that key reports
`cacheHit = false` whatever its outcome.  `forceRefresh` on the
pokemon-details path removes any existing entry before fetching and the
forced fetch reports `cacheHit = false` after at least one remote call; on
the evolution-chain path `forceRefresh` does not remove the entry — it only
bypasses it — though the forced fetch itself still reports
`cacheHit = false`. -/
theorem c4_invalidate (α : Type) :
    (∀ cache : Option (CacheEntry α), existsEntry (invalidate cache) = false) ∧
    (∀ (cache : Option (CacheEntry α)) (att : AttemptResult α),
      hitOf (get_pokemon_details (invalidate cache) att) = false) ∧
    (∀ (atts : Nat → AttemptResult α) (cache : Option (CacheEntry α)),
      (get_pokemon_details_with_retry atts 3 true cache).cacheHit = false ∧
      1 ≤ (get_pokemon_details_with_retry atts 3 true cache).calls) ∧
    (∀ (cache : Option (CacheEntry α)) (att : AttemptResult α),
      hitOf (get_evolution_chain_details cache true att) = false) := by
  refine ⟨fun cache => rfl, ?_, ?_, ?_⟩
  · intro cache att
    cases att <;> rfl
  · intro atts cache
    cases h0 : atts 0 <;> cases h1 : atts 1 <;> cases h2 : atts 2 <;>
      simp [get_pokemon_details_with_retry, retryLoop, get_pokemon_details,
        invalidate, h0, h1, h2]
  · intro cache att
    match cache, att with
    | none, AttemptResult.raise => rfl
    | none, AttemptResult.ok _ => rfl
    | none, AttemptResult.httpFail _ => rfl
    | some (CacheEntry.valid _), AttemptResult.raise => rfl
    | some (CacheEntry.valid _), AttemptResult.ok _ => rfl
    | some (CacheEntry.valid _), AttemptResult.httpFail _ => rfl
    | some CacheEntry.corrupt, AttemptResult.raise => rfl
    | some CacheEntry.corrupt, AttemptResult.ok _ => rfl
    | some CacheEntry.corrupt, AttemptResult.httpFail _ => rfl

/-! ## Claim C6: corrupt cache entries -/

/-- Claim C6: a corrupt or unreadable cache entry behaves exactly as a cache
miss for both detail fetchers — the read error is caught rather than
propagated, and the caller falls through to the remote fetch, so a successful
remote call returns the fresh record with `cacheHit = false` and overwrites
the corrupt entry. -/
theorem c6_corrupt_is_miss (α : Type) (att : AttemptResult α) (fr : Bool) (d : α) :
    dropCacheState (get_pokemon_details (some CacheEntry.corrupt) att) =
      dropCacheState (get_pokemon_details (α := α) none att) ∧
    dropCacheState (get_evolution_chain_details (some CacheEntry.corrupt) fr att) =
      dropCacheState (get_evolution_chain_details (α := α) none fr att) ∧
    get_pokemon_details (some CacheEntry.corrupt) (AttemptResult.ok d) =
      Except.ok (some d, false, some (CacheEntry.valid d)) := by
  refine ⟨?_, ?_, rfl⟩
  · cases att <;> rfl
  · cases att <;> cases fr <;> rfl

/-! ## Claim C5: skipping records with missing fields -/

/-- An extraction loop that meets a requested field other than `name` whose
value resolves to Absent abandons the whole row. -/
theorem build_row_skips (p : PokemonData) (nm : String) (dl : Bool)
    (ds : String → String → Option String) (fields : List String) (f : String)
    (hf : f ∈ fields) (hname : f ≠ "name")
    (habs : get_field_value p f nm dl ds = none) :
    build_row p nm fields dl ds = none := by
  induction fields with
  | nil => simp at hf
  | cons g rest ih =>
    rcases List.mem_cons.mp hf with heq | htl
    · subst heq
      simp [build_row, habs, hname]
    · rw [build_row]
      split
      · rfl
      · rw [ih htl]

/-- Claim C5 as stated is false in evolution mode: with one evolution pair
whose pre-evolution record lacks the requested `speed` stat (it resolves to
Absent) and fields `[name, speed]`, the per-pair loop of
`collect_evolution_data` still emits the row — with the Absent field written
as a blank cell — and the skip count stays 0 instead of the record being
skipped and the skip counter incremented. -/
theorem c5_counterexample :
    get_stat ({} : PokemonData) "speed" = none ∧
    process_pairs ["name", "speed"] false (fun _ _ => none)
        [(("machop", some ({} : PokemonData)),
          ("machoke", some { stats := [⟨"speed", 45⟩] }))] =
      (1, 0,
        [[("pre_evolution_name", some (Value.str "machop")),
          ("pre_evolution_speed", none),
          ("evolution_name", some (Value.str "machoke")),
          ("evolution_speed", some (Value.int 45)),
          ("speed_change", some (Value.int 45))]]) :=
  ⟨rfl, rfl⟩

/-- Claim C5, amended: the Absent-field skip applies only to the flat-mode
row loop.  There, a requested field other than `name` resolving to Absent
makes the loop skip the whole record — no partial row is written, the skip
counter is incremented, and processing continues with the next item — and
end-to-end, with 2 fetched creatures of which the first lacks the requested
stat and fields `[name, speed]`, exactly 1 output row is produced (for the
creature with the stat) and the skip count is 1.  The evolution-mode pair
loop has no such skip: once both fetches succeed the row is emitted
unconditionally, an Absent requested field (here the pre-evolution `speed`)
becoming a blank cell, with nothing added to its skip counter (which counts
only fetch failures and per-pair exceptions). -/
theorem c5_skip_missing_field (p1 p2 : PokemonData) (n1 n2 : String) (v : Int)
    (dl : Bool) (ds : String → String → Option String)
    (h1 : get_stat p1 "speed" = some v) (h2 : get_stat p2 "speed" = none) :
    (∀ (p : PokemonData) (nm f : String) (fields : List String),
        f ∈ fields → f ≠ "name" → get_field_value p f nm dl ds = none →
        build_row p nm fields dl ds = none) ∧
    process_list ["name", "speed"] dl ds [(n2, some p2), (n1, some p1)] =
      (1, 1, [[some (Value.str n1), some (Value.int v)]]) ∧
    process_pairs ["name", "speed"] dl ds [((n2, some p2), (n1, some p1))] =
      (1, 0, [evolution_row ["name", "speed"] n2 n1 p2 p1 dl ds]) ∧
    ("pre_evolution_speed", none) ∈ evolution_row ["name", "speed"] n2 n1 p2 p1 dl ds := by
  refine ⟨fun p nm f fields hf hn ha => build_row_skips p nm dl ds fields f hf hn ha,
    ?_, ?_, ?_⟩
  · simp [process_list, build_row, get_field_value, h1, h2]
  · simp [process_pairs]
  · simp [evolution_row, evo_fields_part, evo_field_value, stat_fields, h2]

/-- Witness for C5: a creature with `speed` 45 and one with no stats at all,
run through the flat-mode loop with fields `[name, speed]` and through the
evolution-mode pair loop as a pair. -/
theorem c5_skip_missing_field_witness :
    get_stat { stats := [⟨"speed", 45⟩] } "speed" = some 45 ∧
    get_stat ({} : PokemonData) "speed" = none ∧
    ((∀ (p : PokemonData) (nm f : String) (fields : List String),
        f ∈ fields → f ≠ "name" → get_field_value p f nm false (fun _ _ => none) = none →
        build_row p nm fields false (fun _ _ => none) = none) ∧
     process_list ["name", "speed"] false (fun _ _ => none)
        [("rattata", some {}), ("pikachu", some { stats := [⟨"speed", 45⟩] })] =
      (1, 1, [[some (Value.str "pikachu"), some (Value.int 45)]]) ∧
     process_pairs ["name", "speed"] false (fun _ _ => none)
        [(("rattata", some {}), ("pikachu", some { stats := [⟨"speed", 45⟩] }))] =
      (1, 0, [evolution_row ["name", "speed"] "rattata" "pikachu" {}
                { stats := [⟨"speed", 45⟩] } false (fun _ _ => none)]) ∧
     ("pre_evolution_speed", none) ∈ evolution_row ["name", "speed"] "rattata" "pikachu"
        {} { stats := [⟨"speed", 45⟩] } false (fun _ _ => none)) := by
  refine ⟨rfl, rfl, ?_⟩
  exact c5_skip_missing_field { stats := [⟨"speed", 45⟩] } {} "pikachu" "rattata" 45
    false (fun _ _ => none) rfl rfl

/-! ## Claim C8: flattening invariants -/

mutual
/-- Every pair emitted below a node with a parent has an evolution component
among the subtree species of that node. -/
theorem mem_link_species (t : ChainLink) (par : SpeciesRef) (pr : EvolutionPair)
    (h : pr ∈ process_chain_link t (some par)) : pr.evolution ∈ subtreeSpecies t := by
  match t with
  | ChainLink.node sp cs =>
    rw [process_chain_link] at h
    rcases List.mem_append.mp h with hpair | hrec
    · rw [subtreeSpecies]
      simp at hpair
      simp [hpair]
    · rw [subtreeSpecies]
      exact List.mem_cons_of_mem _ (mem_children_species cs sp pr hrec)
/-- Every pair emitted by a children loop has an evolution component among the
species of the forest. -/
theorem mem_children_species (cs : List ChainLink) (par : SpeciesRef) (pr : EvolutionPair)
    (h : pr ∈ process_children cs par) : pr.evolution ∈ subtreeSpeciesList cs := by
  match cs with
  | [] => rw [process_children] at h; simp at h
  | c :: rest =>
    rw [process_children] at h
    rw [subtreeSpeciesList]
    rcases List.mem_append.mp h with hl | hr
    · exact List.mem_append.mpr (Or.inl (mem_link_species c par pr hl))
    · exact List.mem_append.mpr (Or.inr (mem_children_species rest par pr hr))
end

mutual
/-- Every pair emitted below a node with a parent is either the edge from
that parent to the node or an edge internal to the subtree of the node. -/
theorem mem_link_edges (t : ChainLink) (par : SpeciesRef) (pr : EvolutionPair)
    (h : pr ∈ process_chain_link t (some par)) :
    pr = ⟨par, speciesOf t⟩ ∨ (pr.pre_evolution, pr.evolution) ∈ treeEdges t := by
  match t with
  | ChainLink.node sp cs =>
    rw [process_chain_link] at h
    rcases List.mem_append.mp h with hpair | hrec
    · simp at hpair
      exact Or.inl (by simp [hpair, speciesOf])
    · rw [treeEdges]
      exact Or.inr (mem_children_edges cs sp pr hrec)
/-- Every pair emitted by a children loop is an edge of the forest rooted at
the parent species. -/
theorem mem_children_edges (cs : List ChainLink) (par : SpeciesRef) (pr : EvolutionPair)
    (h : pr ∈ process_children cs par) :
    (pr.pre_evolution, pr.evolution) ∈ edgesFrom par cs := by
  match cs with
  | [] => rw [process_children] at h; simp at h
  | c :: rest =>
    rw [process_children] at h
    rw [edgesFrom]
    rcases List.mem_append.mp h with hl | hr
    · rcases mem_link_edges c par pr hl with heq | hin
      · subst heq
        simp
      · simp [hin]
    · simp [mem_children_edges rest par pr hr]
end

/-- A pair emitted for a rootless start lies on a tree edge. -/
theorem mem_base_edges (t : ChainLink) (pr : EvolutionPair)
    (h : pr ∈ process_chain_link t none) :
    (pr.pre_evolution, pr.evolution) ∈ treeEdges t := by
  match t with
  | ChainLink.node sp cs =>
    rw [process_chain_link] at h
    simp at h
    rw [treeEdges]
    exact mem_children_edges cs sp pr h

/-- A pair emitted for a rootless start has its evolution among the strict
species of the strict descendants. -/
theorem mem_base_species (t : ChainLink) (pr : EvolutionPair)
    (h : pr ∈ process_chain_link t none) :
    pr.evolution ∈ descSpecies t := by
  match t with
  | ChainLink.node sp cs =>
    rw [process_chain_link] at h
    simp at h
    rw [descSpecies]
    exact mem_children_species cs sp pr h

/-- Claim C8: for a well-formed chain tree (the root species does not recur
among the descendants), the root species never appears as the evolution
(second) component of any emitted pair, and the pre-evolution component of every emitted pair is the species of the parent node of the evolution node of that pair in the tree (the pair lies on a parent-to-child tree edge). -/
theorem c8_flatten_invariants (t : ChainLink)
    (hw : speciesOf t ∉ descSpecies t) :
    ∀ pr ∈ extract_evolution_pairs (some ⟨some t⟩),
      pr.evolution ≠ speciesOf t ∧ (pr.pre_evolution, pr.evolution) ∈ treeEdges t := by
  intro pr hpr
  have h : pr ∈ process_chain_link t none := hpr
  exact ⟨fun heq => hw (heq ▸ mem_base_species t pr h), mem_base_edges t pr h⟩

/-- Witness for C8 at the example chain and its pair `(A, B)`. -/
theorem c8_flatten_invariants_witness :
    (speciesOf exChain ∉ descSpecies exChain) ∧
    ((⟨spA, spB⟩ : EvolutionPair) ∈ extract_evolution_pairs (some ⟨some exChain⟩)) ∧
    ((⟨spA, spB⟩ : EvolutionPair).evolution ≠ speciesOf exChain ∧
      ((⟨spA, spB⟩ : EvolutionPair).pre_evolution, (⟨spA, spB⟩ : EvolutionPair).evolution) ∈
        treeEdges exChain) :=
  ⟨by decide, by decide, c8_flatten_invariants exChain (by decide) ⟨spA, spB⟩ (by decide)⟩

/-! ## Claim C9: the snapshot cache stores the truncated list -/

/-- With a positive limit, the chain pagination loop never accumulates more
than `limit` items. -/
theorem fetch_chains_loop_length_le (α : Type) (l : Nat) (hl : 0 < l) :
    ∀ (pages : List (PageResult α)) (acc : List α) (c : Nat),
      acc.length ≤ l → ((fetch_chains_loop (some l) pages acc c).1).length ≤ l := by
  intro pages
  induction pages with
  | nil => intro acc c h; simpa [fetch_chains_loop] using h
  | cons p rest ih =>
    intro acc c h
    cases p with
    | fail s => simpa [fetch_chains_loop] using h
    | ok results next =>
      rw [fetch_chains_loop]
      by_cases hlim : limitReached (some l) (acc ++ results).length = true
      · rw [if_pos hlim]
        simp [List.length_take]
      · rw [if_neg hlim]
        have hlen : (acc ++ results).length < l := by
          simp [limitReached, hl] at hlim
          simpa using hlim
        cases next with
        | true => simpa using ih (acc ++ results) (c + 1) (Nat.le_of_lt hlen)
        | false => simpa using Nat.le_of_lt hlen

/-- Claim C9: when the evolution-chain collector is invoked with a
(positive) limit, the collected list never exceeds the limit, and whenever it
is nonempty it is exactly what gets persisted under the fixed snapshot cache
key; every subsequent invocation without `forceRefresh` then returns that
same (possibly truncated) list regardless of the limit argument or the pages
the remote would serve. -/
theorem c9_snapshot_truncated (α : Type) (l : Nat) (pages : List (PageResult α))
    (r : List α) (hl : 0 < l)
    (hr : r = (fetch_chains_loop (some l) pages ([] : List α) 0).1) (hne : r ≠ []) :
    r.length ≤ l ∧
    fetch_evolution_chains false (some l) none pages = (r, some (CacheEntry.valid r)) ∧
    (∀ (limit2 : Option Nat) (pages2 : List (PageResult α)),
      fetch_evolution_chains false limit2 (some (CacheEntry.valid r)) pages2 =
        (r, some (CacheEntry.valid r))) := by
  refine ⟨?_, ?_, fun limit2 pages2 => rfl⟩
  · rw [hr]
    exact fetch_chains_loop_length_le α l hl pages [] 0 (by simp)
  · have hempty : ((fetch_chains_loop (some l) pages ([] : List α) 0).1).isEmpty = false := by
      rw [← hr]
      simpa using hne
    simp [fetch_evolution_chains, hempty, hr]

/-- Witness for C9: two refs served on the first page with a limit of 1. -/
theorem c9_snapshot_truncated_witness :
    0 < 1 ∧
    ([10] : List Nat) = (fetch_chains_loop (some 1) [PageResult.ok [10, 20] true] ([] : List Nat) 0).1 ∧
    ([10] : List Nat) ≠ [] ∧
    (([10] : List Nat).length ≤ 1 ∧
     fetch_evolution_chains false (some 1) none [PageResult.ok [10, 20] true] =
        ([10], some (CacheEntry.valid [10])) ∧
     (∀ (limit2 : Option Nat) (pages2 : List (PageResult Nat)),
        fetch_evolution_chains false limit2 (some (CacheEntry.valid [10])) pages2 =
          ([10], some (CacheEntry.valid [10])))) :=
  ⟨by decide, by decide, by decide,
    c9_snapshot_truncated Nat 1 [PageResult.ok [10, 20] true] [10] (by decide) (by decide)
      (by decide)⟩

/-! ## Claim C10: stat deltas coerce Absent to zero -/

/-- Unfolding the delta loop one stat at a time. -/
theorem stat_change_entries_cons (t : String) (rest fields : List String)
    (pre_evo_data evo_data : PokemonData) :
    stat_change_entries (t :: rest) fields pre_evo_data evo_data =
      if t ∈ fields then
        (t ++ "_change",
          some (Value.int (pyOrZero (get_stat evo_data t) - pyOrZero (get_stat pre_evo_data t)))) ::
          stat_change_entries rest fields pre_evo_data evo_data
      else stat_change_entries rest fields pre_evo_data evo_data := rfl

/-- Every requested stat contributes its delta cell to the delta-loop
output. -/
theorem mem_stat_change_entries (sts fields : List String)
    (pre_evo_data evo_data : PokemonData) (s : String) (hs : s ∈ sts) (hf : s ∈ fields) :
    (s ++ "_change",
      some (Value.int (pyOrZero (get_stat evo_data s) - pyOrZero (get_stat pre_evo_data s)))) ∈
      stat_change_entries sts fields pre_evo_data evo_data := by
  induction sts with
  | nil => simp at hs
  | cons t rest ih =>
    rw [stat_change_entries_cons]
    rcases List.mem_cons.mp hs with heq | htl
    · subst heq
      simp [hf]
    · by_cases ht : t ∈ fields
      · rw [if_pos ht]
        exact List.mem_cons_of_mem _ (ih htl)
      · rw [if_neg ht]
        exact ih htl

/-- Claim C10: in evolution mode, for every stat included in the field list,
the emitted row carries a `{stat}_change` cell equal to (evolution stat value,
or 0 when Absent) minus (pre-evolution stat value, or 0 when Absent); a stat
absent from either record is coerced to zero in the delta rather than making
the delta cell Absent. -/
theorem c10_stat_change (fields : List String) (pre_evo_data evo_data : PokemonData)
    (s preName evoName : String) (dl : Bool) (ds : String → String → Option String)
    (hs : s ∈ stat_fields) (hf : s ∈ fields) :
    (s ++ "_change",
      some (Value.int ((get_stat evo_data s).getD 0 - (get_stat pre_evo_data s).getD 0))) ∈
      evolution_row fields preName evoName pre_evo_data evo_data dl ds := by
  have hz : ∀ o : Option Int, pyOrZero o = o.getD 0 := fun o => by cases o <;> rfl
  rw [evolution_row]
  refine List.mem_append.mpr (Or.inr ?_)
  rw [stat_changes]
  have hmem := mem_stat_change_entries stat_fields fields pre_evo_data evo_data s hs hf
  simpa [hz] using hmem

/-- Witness for C10: `speed` requested, absent from the pre-evolution and 90
on the evolution, giving a delta cell of 90 - 0. -/
theorem c10_stat_change_witness :
    "speed" ∈ stat_fields ∧ "speed" ∈ ["speed"] ∧
    ("speed" ++ "_change",
      some (Value.int ((get_stat { stats := [⟨"speed", 90⟩] } "speed").getD 0 -
        (get_stat ({} : PokemonData) "speed").getD 0))) ∈
      evolution_row ["speed"] "abra" "kadabra" {} { stats := [⟨"speed", 90⟩] } false
        (fun _ _ => none) :=
  ⟨by decide, by decide,
    c10_stat_change ["speed"] {} { stats := [⟨"speed", 90⟩] } "speed" "abra" "kadabra"
      false (fun _ _ => none) (by decide) (by decide)⟩
